import Mathlib

/-!
Verification development for the FujoWebDev/contributors repository.

The repository validates YAML contributor record files against a zod schema
and reports per-file results, optionally in watch mode. The development
shallowly embeds the relevant source files:

* `Projects`      — `projects.ts` (the Project Registry: `PROJECTS`,
  `VOLUME_0_ISSUE_1_ROLES`, `PROJECT_ROLES`);
* `RoleSchema`    — the `Role` union schema (identical in both schema files);
* `TeamSchema`    — `team/_schema/index.ts` (strict `Roles` object with
  `z.enum` role restriction, `TeamContributor`);
* `CodeSchema`    — the older `code/schema.ts` variant (non-strict `Roles`,
  raw role-name array passed where a zod schema is expected);
* `Scripts`       — `scripts/validate.ts` (the async runner with abort
  signal, avatar-existence refinement, error classifier, reporter);
* `Contributors`  — the `contributors/` variant of the error classifier
  (its `InvalidRoleError` also names the offending role value).

External collaborators (zod core, the YAML parser, `node:fs`, `node:path`)
are modelled at their boundary: the `Env` structure carries the filesystem,
the YAML parser and the external socials schema as oracles, and the zod
object/array/union/enum validation semantics the schemas rely upon is spelt
out as issue-producing functions, mirroring the issue codes, paths, `keys`
and `unionErrors` fields that the program actually reads.
-/

/-- Prefix test on character lists (structural, so concrete instances
evaluate inside `rfl`/`decide` proofs). -/
def charsPrefix : List Char → List Char → Bool
  | [], _ => true
  | _ :: _, [] => false
  | a :: as, b :: bs => a == b && charsPrefix as bs

/-- Substring containment on character lists (structural). -/
def charsContains (pat : List Char) : List Char → Bool
  | [] => pat.isEmpty
  | a :: rest => charsPrefix pat (a :: rest) || charsContains pat rest

/-- Split a character list at every occurrence of a separator character
(structural; JavaScript `split` semantics for a one-character separator). -/
def splitOnChar (c : Char) : List Char → List (List Char)
  | [] => [[]]
  | a :: rest =>
      let r := splitOnChar c rest
      if a == c then [] :: r
      else
        match r with
        | [] => [[a]]
        | g :: gs => (a :: g) :: gs

/-- Model of JavaScript `String.prototype.includes`: substring containment
(`true` on the empty pattern, as in JS). -/
def jsIncludes (s pat : String) : Bool :=
  charsContains pat.data s.data

/-- Model of JavaScript `String.prototype.split` with a one-character
separator (the sources only ever split on `"."`). -/
def jsSplit (s : String) (c : Char) : List String :=
  (splitOnChar c s.data).map (fun cs => ⟨cs⟩)

/-- Model of JavaScript `String.prototype.endsWith` (used on the two file
extensions). -/
def jsEndsWith (s suffix : String) : Bool :=
  charsPrefix suffix.data.reverse s.data.reverse

/-- Prefix test on strings (structural, unlike core `String.startsWith`). -/
def strStartsWith (s pre : String) : Bool :=
  charsPrefix pre.data s.data

/-- Boundary model of `node:path` `join` for the call sites in the sources
(joining a directory with a bare file name). -/
def pathJoin (a b : String) : String := a ++ "/" ++ b

/-- Boundary model of `node:path` `resolve(base, p)` for the call sites in
the sources: an absolute `p` wins, otherwise it is appended to `base`. -/
def pathResolve (base p : String) : String :=
  if strStartsWith p "/" then p else base ++ "/" ++ p

/-- Boundary model of `node:path` `dirname`: everything before the last
separator. -/
def pathDirname (p : String) : String :=
  let parts := jsSplit p '/'
  if parts.length ≤ 1 then "." else String.intercalate "/" parts.dropLast

/-- Boundary model of `node:path` `relative(base, p)` for the call sites in
the sources, where `p` always lies below the working directory `base`. -/
def pathRelative (base p : String) : String :=
  if strStartsWith p (base ++ "/") then ⟨p.data.drop (base.data.length + 1)⟩ else p

/-- Generic structured value produced by the external YAML parser
(the repository treats it as `any`). -/
inductive Value where
  | str (s : String)
  | num (n : Int)
  | bool (b : Bool)
  | null
  | arr (items : List Value)
  | obj (fields : List (String × Value))

/-- JavaScript object property access on a parsed value's field list
(keys of a parsed YAML mapping are unique; first match). -/
def lookupField (fields : List (String × Value)) (key : String) : Option Value :=
  (fields.find? (fun kv => kv.1 == key)).map (fun kv => kv.2)

/-- zod's `parsedType` name for a value. -/
def typeNameOf : Value → String
  | .str _ => "string"
  | .num _ => "number"
  | .bool _ => "boolean"
  | .null => "null"
  | .arr _ => "array"
  | .obj _ => "object"

/-- A nested issue inside a union failure (`unionErrors[i].issues[j]`), with
the two fields the classifier in the `contributors/` variant reads. -/
structure SubIssue where
  code : String
  received : String
deriving DecidableEq, Repr

/-- A raw zod issue as the classifiers consume it: an error `code`, a field
`path` (number elements rendered in decimal, as `path.join(".")` does), the
`keys` of an `unrecognized_keys` issue, a `message`, and the issue lists of
the failed union branches for an `invalid_union` issue. -/
structure ZodIssue where
  code : String
  path : List String
  keys : List String
  message : String
  unionErrors : List (List SubIssue)
deriving DecidableEq, Repr

/-- zod `invalid_type` issue for a present value of the wrong type. -/
def typeIssue (path : List String) (expected : String) (v : Value) : ZodIssue :=
  { code := "invalid_type", path := path, keys := [],
    message := "Expected " ++ expected ++ ", received " ++ typeNameOf v,
    unionErrors := [] }

/-- zod `invalid_type` issue for a missing required field. -/
def requiredIssue (path : List String) : ZodIssue :=
  { code := "invalid_type", path := path, keys := [], message := "Required",
    unionErrors := [] }

/-- zod validation of `z.string()` at a field of an object. -/
def stringFieldIssues (fields : List (String × Value)) (key : String) : List ZodIssue :=
  match lookupField fields key with
  | none => [requiredIssue [key]]
  | some (.str _) => []
  | some v => [typeIssue [key] "string" v]

/-- One validation result per record file (`interface ValidationResult`). -/
structure ValidationResult where
  file : String
  isValid : Bool
  errors : List String
  warnings : List String
deriving DecidableEq, Repr

/-- The process-level environment: working directory plus the external
collaborators (directory listing of the record directory, file reads, the
YAML parser, the `access`-based existence check, and the issues the external
`SocialsSchema` produces on one contact entry). `Except.error` carries the
`message` of the exception the external call throws. -/
structure Env where
  cwd : String
  dirListing : Except String (List String)
  readFile : String → Except String String
  parseYaml : String → Except String Value
  fileExists : String → Bool
  socialsIssues : Value → List ZodIssue

namespace Projects

/-- `PROJECTS` from `projects.ts`. -/
def PROJECTS : List String :=
  ["Volume 0 Kickstarter", "Volume 0", "Website", "Volume 0 Issue 1",
   "Fandom Cookies"]

/-- `VOLUME_0_ISSUE_1_ROLES` from `projects.ts`. -/
def VOLUME_0_ISSUE_1_ROLES : List String :=
  ["Technical Writer", "Scenario Writer", "Beta Reading Coordinator",
   "Beta Reader", "Proofreader", "Artist", "Tasks Coordinator",
   "Communications", "Character Designer", "Additional Coding",
   "Data Collection & Entry"]

/-- `PROJECT_ROLES[project]`: only "Volume 0 Issue 1" has a restricted
role list. -/
def PROJECT_ROLES (project : String) : Option (List String) :=
  if project = "Volume 0 Issue 1" then some VOLUME_0_ISSUE_1_ROLES else none

end Projects

namespace RoleSchema

/-- Sub-issues of the first union branch of `Role`: the bare role type,
`z.enum(list)` for a restricted project (`invalid_enum_value` carrying the
`received` string) or `z.string()` otherwise. -/
def baseRoleSubIssues (roleType : Option (List String)) (v : Value) : List SubIssue :=
  match roleType, v with
  | none, .str _ => []
  | none, v => [⟨"invalid_type", typeNameOf v⟩]
  | some opts, .str s =>
      if s ∈ opts then [] else [⟨"invalid_enum_value", s⟩]
  | some _, v => [⟨"invalid_type", typeNameOf v⟩]

/-- Sub-issues of the second union branch of `Role`:
`z.object({ role: roleType, details: z.string() })`. -/
def roleObjectSubIssues (roleType : Option (List String)) (v : Value) : List SubIssue :=
  match v with
  | .obj fields =>
      (match lookupField fields "role" with
       | none => [⟨"invalid_type", "undefined"⟩]
       | some rv => baseRoleSubIssues roleType rv)
      ++ (match lookupField fields "details" with
          | none => [⟨"invalid_type", "undefined"⟩]
          | some (.str _) => []
          | some dv => [⟨"invalid_type", typeNameOf dv⟩])
  | v => [⟨"invalid_type", typeNameOf v⟩]

/-- zod validation of one `Role` union entry: no issue when either branch
accepts, otherwise a single `invalid_union` issue at the entry's path whose
`unionErrors` hold both branches' sub-issues. -/
def roleEntryIssue (roleType : Option (List String)) (path : List String)
    (v : Value) : Option ZodIssue :=
  let b1 := baseRoleSubIssues roleType v
  let b2 := roleObjectSubIssues roleType v
  if b1.isEmpty || b2.isEmpty then none
  else some { code := "invalid_union", path := path, keys := [],
              message := "Invalid input", unionErrors := [b1, b2] }

end RoleSchema

namespace TeamSchema

/-- Issues of the items of one project's role array, indexed from 0. -/
def projectItemsIssues (roleType : Option (List String)) (project : String) :
    List Value → Nat → List ZodIssue
  | [], _ => []
  | v :: vs, i =>
      let idx := toString i
      (match RoleSchema.roleEntryIssue roleType ["roles", project, idx] v with
       | some e => [e]
       | none => [])
      ++ projectItemsIssues roleType project vs (i + 1)

/-- The synchronously recorded issue of one project field of the strict
`Roles` object: a missing key takes the `[]` default, and a non-array value
is an `invalid_type` added during the shape-key loop; array items go
through the `Role` union, whose failures the async parser defers (see
`projectFieldUnionIssues`). -/
def projectFieldTypeIssues (rfields : List (String × Value)) (project : String) :
    List ZodIssue :=
  match lookupField rfields project with
  | none => []
  | some (.arr _) => []
  | some v => [typeIssue ["roles", project] "array" v]

/-- Synchronously recorded project-field issues, in `PROJECTS` order (the
order zod parses the shape keys in). -/
def projectsTypeIssues (rfields : List (String × Value)) :
    List String → List ZodIssue
  | [] => []
  | p :: ps => projectFieldTypeIssues rfields p ++ projectsTypeIssues rfields ps

/-- The deferred `invalid_union` issues of one project field: under
`safeParseAsync`, zod's union parser runs its branches in child contexts
and adds the `invalid_union` issue to the parent context only in a deferred
continuation, after all synchronously recorded issues. -/
def projectFieldUnionIssues (rfields : List (String × Value)) (project : String) :
    List ZodIssue :=
  match lookupField rfields project with
  | none => []
  | some (.arr items) =>
      projectItemsIssues (Projects.PROJECT_ROLES project) project items 0
  | some _ => []

/-- Deferred union issues of all registered project fields, in traversal
order. -/
def projectsUnionIssues (rfields : List (String × Value)) :
    List String → List ZodIssue
  | [] => []
  | p :: ps => projectFieldUnionIssues rfields p ++ projectsUnionIssues rfields ps

/-- The keys of the `roles` object that are not registered project names
(zod's `extraKeys` for the strict object). -/
def extraRoleKeys (rfields : List (String × Value)) : List String :=
  (rfields.map Prod.fst).filter (fun k => !(decide (k ∈ Projects.PROJECTS)))

/-- The `unrecognized_keys` issue the strict `Roles` object emits for a
given list of unknown keys. -/
def ukIssue (ks : List String) : ZodIssue :=
  { code := "unrecognized_keys", path := ["roles"], keys := ks,
    message := "Unrecognized key(s) in object", unionErrors := [] }

/-- The synchronously recorded issues of the strict `Roles` object: the
shape-key loop's `invalid_type` issues (in parse order), then the strict
handling's one `unrecognized_keys` issue at path `["roles"]` listing all
unknown keys, when any exist. Under `safeParseAsync` all of these are added
to the context synchronously, before any of the deferred `invalid_union`
issues. -/
def rolesSyncIssues (v : Value) : List ZodIssue :=
  match v with
  | .obj rfields =>
      projectsTypeIssues rfields Projects.PROJECTS
      ++ (if (extraRoleKeys rfields).isEmpty then []
          else [ukIssue (extraRoleKeys rfields)])
  | v => [typeIssue ["roles"] "object" v]

/-- The deferred union issues of the `Roles` object. -/
def rolesUnionIssues (v : Value) : List ZodIssue :=
  match v with
  | .obj rfields => projectsUnionIssues rfields Projects.PROJECTS
  | _ => []

/-- All issues the `Roles` object contributes, across both phases of the
async parse: the synchronously recorded ones (including the strict
`unrecognized_keys` issue), then the deferred `invalid_union` issues. -/
def rolesIssues (v : Value) : List ZodIssue :=
  rolesSyncIssues v ++ rolesUnionIssues v

/-- Re-root an issue of an external sub-schema below a parent path. -/
def rerootIssue (pre : List String) (e : ZodIssue) : ZodIssue :=
  { e with path := pre ++ e.path }

/-- Issues of the items of the `contacts` array, each produced by the
external `SocialsSchema` and re-rooted at `contacts.<index>`. -/
def contactItemsIssues (env : Env) : List Value → Nat → List ZodIssue
  | [], _ => []
  | v :: vs, i =>
      let idx := toString i
      (env.socialsIssues v).map (rerootIssue ["contacts", idx])
      ++ contactItemsIssues env vs (i + 1)

/-- Issues of the `contacts` field: missing takes the `[]` default, a
non-array is an `invalid_type`, items go through the external schema. -/
def contactsIssuesOf (env : Env) (fields : List (String × Value)) : List ZodIssue :=
  match lookupField fields "contacts" with
  | none => []
  | some (.arr items) => contactItemsIssues env items 0
  | some v => [typeIssue ["contacts"] "array" v]

/-- zod validation of the `TeamContributor` object under `safeParseAsync`
(shape order `name`, `avatar`, `roles`, `contacts`; the top-level object is
not strict). The issue order follows the async parse: every synchronously
recorded issue first — the string-field issues, the `Roles` object's
`invalid_type` and strict `unrecognized_keys` issues, and the contacts
issues (the external `SocialsSchema` is modelled as recording its issues
synchronously, in traversal order) — and only then the `invalid_union`
issues that zod's union parser adds in deferred continuations. -/
def contributorIssues (env : Env) (v : Value) : List ZodIssue :=
  match v with
  | .obj fields =>
      (stringFieldIssues fields "name"
       ++ stringFieldIssues fields "avatar"
       ++ (match lookupField fields "roles" with
           | none => [requiredIssue ["roles"]]
           | some rv => rolesSyncIssues rv)
       ++ contactsIssuesOf env fields)
      ++ (match lookupField fields "roles" with
          | none => []
          | some rv => rolesUnionIssues rv)
  | v => [typeIssue [] "object" v]

/-- The `avatar` field of a parsed contributor value; when validation
succeeded the field is present and a string, so the `""` fallback is never
the value of a successfully parsed record. -/
def avatarOf (v : Value) : String :=
  match v with
  | .obj fields =>
      match lookupField fields "avatar" with
      | some (.str s) => s
      | _ => ""
  | _ => ""

end TeamSchema

namespace CodeSchema

/-- `code/schema.ts` passes `PROJECT_ROLES[project]` — the raw role-name
array, not a `z.enum` — into `Role` for a restricted project; invoking that
"schema" inside the union at validation time throws a `TypeError`. Items of
an unrestricted project validate exactly like the `z.string()` role union.
`Except.error` models the thrown `TypeError`. -/
def itemsCheck (roleType : Option (List String)) (project : String) :
    List Value → Nat → Except String (List ZodIssue)
  | [], _ => .ok []
  | v :: vs, i =>
      match roleType with
      | some _ => .error "option._parseSync is not a function"
      | none =>
          let idx := toString i
          match itemsCheck none project vs (i + 1) with
          | .error e => .error e
          | .ok rest =>
              .ok ((match RoleSchema.roleEntryIssue none ["roles", project, idx] v with
                    | some e => [e]
                    | none => []) ++ rest)

/-- Issues of the registered project fields of the non-strict `Roles`
object of `code/schema.ts`. -/
def projectsCheck (rfields : List (String × Value)) :
    List String → Except String (List ZodIssue)
  | [] => .ok []
  | p :: ps =>
      let here : Except String (List ZodIssue) :=
        match lookupField rfields p with
        | none => .ok []
        | some (.arr items) => itemsCheck (Projects.PROJECT_ROLES p) p items 0
        | some v => .ok [typeIssue ["roles", p] "array" v]
      match here with
      | .error e => .error e
      | .ok h =>
          match projectsCheck rfields ps with
          | .error e => .error e
          | .ok rest => .ok (h ++ rest)

/-- zod validation of the `Roles` object of `code/schema.ts`: a plain
`z.object` without `.strict()`, so unrecognized keys produce no issue at
all (strip mode). -/
def rolesCheck (v : Value) : Except String (List ZodIssue) :=
  match v with
  | .obj rfields => projectsCheck rfields Projects.PROJECTS
  | v => .ok [typeIssue ["roles"] "object" v]

/-- The keys a successful parse of the non-strict `Roles` object keeps:
unknown keys are silently dropped from the output. -/
def strippedRolesKeys (rfields : List (String × Value)) : List String :=
  (rfields.map Prod.fst).filter (fun k => decide (k ∈ Projects.PROJECTS))

/-- zod validation of the `TeamContributor` object of `code/schema.ts`
(same shape as the team schema, but with the non-strict `Roles`). -/
def contributorIssues (env : Env) (v : Value) : Except String (List ZodIssue) :=
  match v with
  | .obj fields =>
      let rolesPart : Except String (List ZodIssue) :=
        match lookupField fields "roles" with
        | none => .ok [requiredIssue ["roles"]]
        | some rv => rolesCheck rv
      match rolesPart with
      | .error e => .error e
      | .ok rolesIss =>
          .ok (stringFieldIssues fields "name"
               ++ stringFieldIssues fields "avatar"
               ++ rolesIss
               ++ TeamSchema.contactsIssuesOf env fields)
  | v => .ok [typeIssue [] "object" v]

end CodeSchema

namespace Scripts

/-- `TEAM_DIR = path.resolve(process.cwd(), "team")`. -/
def TEAM_DIR (env : Env) : String := pathResolve env.cwd "team"

/-- `PROJECTS_FILE = path.resolve(process.cwd(), "team/_schema/projects.ts")`. -/
def PROJECTS_FILE (env : Env) : String :=
  pathResolve env.cwd "team/_schema/projects.ts"

/-- The two classifier escalation errors of `scripts/validate.ts`
(`InvalidRoleError` there does not name the role value). The constructor
arguments are the constructor arguments of the source classes. -/
inductive EscalatedError where
  | invalidRoleError (projectName : String) (filePath : String)
  | invalidProjectError (projectName : String) (filePath : String)
deriving DecidableEq, Repr

/-- The `message` the source classes pass to `super(...)`. -/
def EscalatedError.message (cwd : String) : EscalatedError → String
  | .invalidRoleError p f =>
      let rel := pathRelative cwd f
      s!"Invalid role in project \"{p}\" for file ./{rel}."
  | .invalidProjectError p f =>
      let rel := pathRelative cwd f
      s!"Invalid project \"{p}\" for file ./{rel}."

/-- `formatValidationError` of `scripts/validate.ts`. The source's nested
`if` bodies only throw, so the control flow flattens to this chain: an
`unrecognized_keys` issue whose one-element path contains "roles" escalates
to `InvalidProjectError` naming `error.keys[0]`; an `invalid_union` issue
whose dot-joined path contains "roles." escalates to `InvalidRoleError`
naming `path.split(".")[1]`; otherwise the generic
`"<joined path>: <message>"` (or the bare message on an empty path). -/
def formatValidationError (error : ZodIssue) (filePath : String) :
    Except EscalatedError String :=
  if error.code = "unrecognized_keys" ∧ error.path.length = 1
      ∧ jsIncludes (error.path.headD "") "roles" = true then
    .error (.invalidProjectError (error.keys.headD "undefined") filePath)
  else if error.code = "invalid_union"
      ∧ jsIncludes (String.intercalate "." error.path) "roles." = true then
    .error (.invalidRoleError
      ((jsSplit (String.intercalate "." error.path) '.').getD 1 "undefined")
      filePath)
  else if 0 < error.path.length then
    .ok (String.intercalate "." error.path ++ ": " ++ error.message)
  else
    .ok error.message

/-- `validation.error.errors.map(formatValidationError)`: JavaScript `map`
runs left to right and an escalation thrown at any element aborts the whole
map, discarding every already-formatted string. -/
def mapFormatErrors (filePath : String) :
    List ZodIssue → Except EscalatedError (List String)
  | [] => .ok []
  | e :: es =>
      match formatValidationError e filePath with
      | .error err => .error err
      | .ok s =>
          match mapFormatErrors filePath es with
          | .error err => .error err
          | .ok rest => .ok (s :: rest)

/-- A parsed contributor as far as the runner consumes it (only the
`avatar` field is read, by the `superRefine` existence check). -/
structure ParsedContributor where
  avatar : String
deriving Repr

/-- `TeamContributor.superRefine(...).safeParseAsync(data)`: schema-shape
validation, then the avatar-existence refinement. zod's `ZodEffects` runs a
`superRefine` refinement whenever the inner parse did not abort: for this
schema every failing field parse aborts the record, and only the strict
`Roles` object's `unrecognized_keys` issue merely dirties it, so the
refinement runs exactly when every recorded issue is an `unrecognized_keys`
issue (in particular on a fully valid record). The refinement resolves the
avatar path against the record file's own directory; a miss appends one
`custom` issue at path `["avatar"]` naming the resolved path relative to
the working directory, and a dirty parse still fails with all recorded
issues. -/
def safeParseWithAvatarCheck (env : Env) (filePath : String) (data : Value) :
    Except (List ZodIssue) ParsedContributor :=
  let issues := TeamSchema.contributorIssues env data
  let abortingIssues := issues.filter (fun e => e.code != "unrecognized_keys")
  if abortingIssues.isEmpty then
    let avatar := TeamSchema.avatarOf data
    let avatarPath := pathResolve (pathDirname filePath) avatar
    if env.fileExists avatarPath then
      if issues.isEmpty then .ok ⟨avatar⟩ else .error issues
    else
      let rel := pathRelative env.cwd avatarPath
      .error (issues
        ++ [{ code := "custom", path := ["avatar"], keys := [],
              message := "No avatar file found at ./" ++ rel, unionErrors := [] }])
  else .error issues

/-- The body of `validateTeamFile`'s `try` block after the abort checkpoint:
read, parse, validate. `Except.error` carries the `message` of whatever was
thrown (read failure, YAML parse failure, or a classifier escalation). -/
def teamFileBody (env : Env) (filePath : String) : Except String ValidationResult :=
  match env.readFile filePath with
  | .error e => .error e
  | .ok content =>
      match env.parseYaml content with
      | .error e => .error e
      | .ok data =>
          match safeParseWithAvatarCheck env filePath data with
          | .ok _ => .ok ⟨filePath, true, [], []⟩
          | .error issues =>
              match mapFormatErrors filePath issues with
              | .ok strs => .ok ⟨filePath, false, strs, []⟩
              | .error e => .error (e.message env.cwd)

/-- The result `validateTeamFile` returns when it is not aborted: any
failure thrown inside the `try` block is caught at the file's boundary and
pushed as a single `"Failed to parse file: ..."` error string. -/
def fileResult (env : Env) (filePath : String) : ValidationResult :=
  match teamFileBody env filePath with
  | .ok r => r
  | .error msg => ⟨filePath, false, ["Failed to parse file: " ++ msg], []⟩

/-- `validateTeamFile(filePath, signal)`: `signal?.throwIfAborted()` runs
first, and the `catch` re-throws an `AbortError` (modelled `Except.error ()`)
instead of converting it; everything else yields a `ValidationResult`. -/
def validateTeamFile (env : Env) (filePath : String) (aborted : Bool) :
    Except Unit ValidationResult :=
  if aborted then .error () else .ok (fileResult env filePath)

/-- Enumeration of the record files: `readdirSync(TEAM_DIR)` filtered to the
two recognized extensions and joined onto the directory. -/
def teamFiles (env : Env) : Except String (List String) :=
  match env.dirListing with
  | .ok files =>
      .ok ((files.filter (fun f => jsEndsWith f ".yaml" || jsEndsWith f ".yml")).map
            (fun f => pathJoin (TEAM_DIR env) f))
  | .error e => .error e

/-- `validateAllTeamFiles(signal)`: one promise per enumerated file; a
directory-listing failure is caught (and logged to the console) and yields
the empty list. -/
def validateAllTeamFiles (env : Env) (aborted : Bool) :
    List (Except Unit ValidationResult) :=
  match teamFiles env with
  | .ok files => files.map (fun f => validateTeamFile env f aborted)
  | .error _ => []

/-- The results of one non-aborted pass, one per enumerated file. -/
def passResults (env : Env) : List ValidationResult :=
  match teamFiles env with
  | .ok files => files.map (fileResult env)
  | .error _ => []

/-- The per-file sections of the report (files with at least one error). -/
def resultLines (env : Env) : List ValidationResult → List String
  | [] => []
  | r :: rs =>
      (if r.errors.isEmpty then []
       else
         let rel := pathRelative env.cwd r.file
         (s!"./team/{rel}:") :: r.errors.map (fun e => "  - " ++ e))
      ++ resultLines env rs

/-- The required-field names the tips section computes from
`TeamContributor.shape`: every field whose schema is not optional — `name`,
`avatar` and `roles` (`contacts` has a `.default`, so it is optional). -/
def requiredShapeFields : List String := ["name", "avatar", "roles"]

/-- The tips section printed when errors exist. -/
def tipsLines (env : Env) : List String :=
  let projRel := pathRelative env.cwd (PROJECTS_FILE env)
  let fieldsStr := String.intercalate ", " requiredShapeFields
  ["\n💡 Tips:",
   s!"   • Project names and roles must match those in ./{projRel}",
   s!"   • Ensure all required fields ({fieldsStr}) are present",
   "   • Verify contact URLs are valid"]

/-- `printResults`, as the list of lines written to the console. -/
def printResults (env : Env) (results : List ValidationResult) : List String :=
  let hasErrors := results.any (fun r => !r.errors.isEmpty)
  let validCount := (results.filter (fun r => r.isValid)).length
  let total := results.length
  (if hasErrors then
     ["❌ Found errors:\n", "--------------------------------"]
     ++ resultLines env results
     ++ ["--------------------------------\n"]
   else ["🎉 Great news:"])
  ++ [s!"{validCount}/{total} files valid"]
  ++ (if hasErrors then tipsLines env else [])

/-- `Promise.all` over the per-file promises: rejects when any rejects. -/
def collectAll : List (Except Unit ValidationResult) →
    Except Unit (List ValidationResult)
  | [] => .ok []
  | p :: ps =>
      match p with
      | .error e => .error e
      | .ok r =>
          match collectAll ps with
          | .error e => .error e
          | .ok rs => .ok (r :: rs)

/-- The outcome of `runValidation`: the report printed for the pass (none
when the pass was aborted) and the returned `hasErrors` flag. -/
structure RunOutcome where
  report : Option (List String)
  hasErrors : Bool
deriving DecidableEq, Repr

/-- `runValidation`: awaits all per-file results, computes `hasErrors =
results.some(r => !r.isValid)`, prints the report and returns the flag; an
`AbortError` escaping `Promise.all` is caught, nothing is printed for the
pass and `false` is returned. `aborted` is the state of the pass's
cancellation signal at its per-file checkpoints. -/
def runValidation (env : Env) (aborted : Bool) : RunOutcome :=
  match collectAll (validateAllTeamFiles env aborted) with
  | .error _ => ⟨none, false⟩
  | .ok results =>
      ⟨some (printResults env results), results.any (fun r => !r.isValid)⟩

/-- `process.argv.includes("--watch") || process.argv.includes("-w")`. -/
def isWatchMode (argv : List String) : Bool :=
  argv.contains "--watch" || argv.contains "-w"

/-- The single-pass entry point: in watch mode the process does not exit;
otherwise `process.exit(hasErrors ? 1 : 0)` after one pass whose fresh
controller is never aborted (nothing else runs to abort it). -/
def mainExitCode (env : Env) (argv : List String) : Option Nat :=
  if isWatchMode argv then none
  else
    let hasErrors := (runValidation env false).hasErrors
    some (if hasErrors then 1 else 0)

/-- Two sequential passes over the same environment. The only cross-pass
mutable state, `currentValidationController`, is cleared by the first pass's
`finally` (its signal is still the current one), so the second pass again
starts with a fresh, unaborted signal. -/
def runValidationTwice (env : Env) : RunOutcome × RunOutcome :=
  (runValidation env false, runValidation env false)

end Scripts

namespace Contributors

/-- The classifier escalation errors of the `contributors/` variant; its
`InvalidRoleError` also carries the offending role value, which may be
absent (`undefined`) when no nested `invalid_enum_value` issue exists. -/
inductive EscalatedError where
  | invalidRoleError (roleName : Option String) (projectName : String)
      (filePath : String)
  | invalidProjectError (projectName : String) (filePath : String)
deriving DecidableEq, Repr

/-- The `message` the source classes pass to `super(...)`; an absent role
name renders as JavaScript renders `undefined` in a template literal. -/
def EscalatedError.message (cwd : String) : EscalatedError → String
  | .invalidRoleError r p f =>
      let rn := r.getD "undefined"
      let rel := pathRelative cwd f
      s!"Invalid role {rn} in project \"{p}\" for file ./{rel}."
  | .invalidProjectError p f =>
      let rel := pathRelative cwd f
      s!"Invalid project \"{p}\" for file ./{rel}."

/-- `formatValidationError` of the `contributors/` variant: as in
`scripts/validate.ts`, but the `InvalidRoleError` also names the `received`
value of the first `invalid_enum_value` issue found among the flattened
union branch issues (or `undefined` when none exists). -/
def formatValidationError (error : ZodIssue) (filePath : String) :
    Except EscalatedError String :=
  if error.code = "unrecognized_keys" ∧ error.path.length = 1
      ∧ jsIncludes (error.path.headD "") "roles" = true then
    .error (.invalidProjectError (error.keys.headD "undefined") filePath)
  else if error.code = "invalid_union"
      ∧ jsIncludes (String.intercalate "." error.path) "roles." = true then
    let joined := String.intercalate "." error.path
    let projectName := (jsSplit joined '.').getD 1 "undefined"
    let roleName :=
      (error.unionErrors.flatten.find? (fun s => s.code == "invalid_enum_value")).map
        SubIssue.received
    .error (.invalidRoleError roleName projectName filePath)
  else if 0 < error.path.length then
    .ok (String.intercalate "." error.path ++ ": " ++ error.message)
  else
    .ok error.message

end Contributors

/-!
Concrete environments and record values used by the closed witness and
counterexample theorems below. All files live under the working directory
`/repo`, with the record directory `/repo/team`.
-/

/-- A shape-valid record whose avatar file exists. -/
def goodRecord : Value :=
  .obj [("name", .str "Alice"), ("avatar", .str "alice.png"),
        ("roles", .obj [("Website", .arr [.str "developer"])])]

/-- Environment with the single valid record file `alice.yaml`. -/
def env1 : Env :=
  { cwd := "/repo"
    dirListing := .ok ["alice.yaml"]
    readFile := fun p =>
      if p == "/repo/team/alice.yaml" then .ok "alice-doc" else .error "ENOENT"
    parseYaml := fun c =>
      if c == "alice-doc" then .ok goodRecord else .error "YAMLParseError"
    fileExists := fun p => p == "/repo/team/alice.png"
    socialsIssues := fun _ => [] }

/-- A record whose only defect is the unregistered roles key "Nope". -/
def unknownKeyRecord : Value :=
  .obj [("name", .str "Beta"), ("avatar", .str "beta.png"),
        ("roles", .obj [("Nope", .arr [])])]

/-- Environment with the single record file `beta.yaml` holding
`unknownKeyRecord`. -/
def envUnknown : Env :=
  { cwd := "/repo"
    dirListing := .ok ["beta.yaml"]
    readFile := fun p =>
      if p == "/repo/team/beta.yaml" then .ok "beta-doc" else .error "ENOENT"
    parseYaml := fun c =>
      if c == "beta-doc" then .ok unknownKeyRecord else .error "YAMLParseError"
    fileExists := fun _ => true
    socialsIssues := fun _ => [] }

/-- The roles object holding both an invalid role entry for the registered
project "Website" and the unregistered key "Nope". -/
def bothRolesFields : List (String × Value) :=
  [("Website", .arr [.num 42]), ("Nope", .arr [])]

/-- A record with both defects of `bothRolesFields`. -/
def bothRecord : Value :=
  .obj [("name", .str "Dana"), ("avatar", .str "dana.png"),
        ("roles", .obj bothRolesFields)]

/-- Environment with the single record file `both.yaml` holding
`bothRecord`. -/
def envBoth : Env :=
  { cwd := "/repo"
    dirListing := .ok ["both.yaml"]
    readFile := fun p =>
      if p == "/repo/team/both.yaml" then .ok "both-doc" else .error "ENOENT"
    parseYaml := fun c =>
      if c == "both-doc" then .ok bothRecord else .error "YAMLParseError"
    fileExists := fun _ => true
    socialsIssues := fun _ => [] }

/-- A shape-valid record (empty roles object) whose avatar is missing. -/
def carolRecord : Value :=
  .obj [("name", .str "Carol"), ("avatar", .str "carol.png"),
        ("roles", .obj [])]

/-- Environment with the single record file `carol.yaml` holding
`carolRecord`, whose avatar file does not exist. -/
def envNoAvatar : Env :=
  { cwd := "/repo"
    dirListing := .ok ["carol.yaml"]
    readFile := fun p =>
      if p == "/repo/team/carol.yaml" then .ok "carol-doc" else .error "ENOENT"
    parseYaml := fun c =>
      if c == "carol-doc" then .ok carolRecord else .error "YAMLParseError"
    fileExists := fun _ => false
    socialsIssues := fun _ => [] }

/-- Environment whose record directory cannot be enumerated. -/
def envNone : Env :=
  { cwd := "/repo"
    dirListing := .error "ENOENT: no such file or directory"
    readFile := fun _ => .error "ENOENT"
    parseYaml := fun _ => .error "YAMLParseError"
    fileExists := fun _ => false
    socialsIssues := fun _ => [] }

/-- An `invalid_union` issue at a path below `roles` none of whose nested
union failures is an enum mismatch (as zod produces for a non-string,
non-object role entry of an unrestricted project). -/
def issueNoEnum : ZodIssue :=
  { code := "invalid_union", path := ["roles", "Website", "0"], keys := [],
    message := "Invalid input",
    unionErrors := [[⟨"invalid_type", "number"⟩], [⟨"invalid_type", "number"⟩]] }

/-! Helper lemmas about the runner. -/

/-- A non-aborted per-file check returns its result. -/
theorem validateTeamFileFalse (env : Env) (f : String) :
    Scripts.validateTeamFile env f false = .ok (Scripts.fileResult env f) := rfl

/-- `Promise.all` over promises that all resolve. -/
theorem collectAllMapOk (g : String → ValidationResult) :
    ∀ l : List String,
      Scripts.collectAll (l.map (fun f => Except.ok (g f))) = .ok (l.map g)
  | [] => rfl
  | f :: fs => by
      simp only [List.map_cons, Scripts.collectAll, collectAllMapOk g fs]

/-- A non-aborted pass prints the report over `passResults` and returns
whether any of them is invalid. -/
theorem runValidationFalseEq (env : Env) :
    Scripts.runValidation env false
      = ⟨some (Scripts.printResults env (Scripts.passResults env)),
         (Scripts.passResults env).any (fun r => !r.isValid)⟩ := by
  unfold Scripts.runValidation Scripts.validateAllTeamFiles Scripts.passResults
  cases h : Scripts.teamFiles env with
  | ok files => simp only [validateTeamFileFalse, collectAllMapOk]
  | error e => rfl

/-- `map(formatValidationError)` preserves the issue count when no issue
escalates. -/
theorem mapFormatErrorsLength (f : String) :
    ∀ (issues : List ZodIssue) (out : List String),
      Scripts.mapFormatErrors f issues = .ok out → out.length = issues.length := by
  intro issues
  induction issues with
  | nil =>
      intro out h
      simp only [Scripts.mapFormatErrors] at h
      cases h
      rfl
  | cons e es ih =>
      intro out h
      unfold Scripts.mapFormatErrors at h
      cases hfe : Scripts.formatValidationError e f with
      | error err => rw [hfe] at h; cases h
      | ok s =>
          rw [hfe] at h
          cases hrec : Scripts.mapFormatErrors f es with
          | error err => rw [hrec] at h; cases h
          | ok rest =>
              rw [hrec] at h
              cases h
              simp [ih rest hrec]

/-- A failed `safeParse` carries at least one issue. -/
theorem safeParseErrorNonempty (env : Env) (f : String) (data : Value)
    (issues : List ZodIssue)
    (h : Scripts.safeParseWithAvatarCheck env f data = .error issues) :
    issues ≠ [] := by
  unfold Scripts.safeParseWithAvatarCheck at h
  cases ha : ((TeamSchema.contributorIssues env data).filter
      (fun e => e.code != "unrecognized_keys")).isEmpty with
  | false =>
      simp only [ha, Bool.false_eq_true, if_false] at h
      cases h
      intro hnil
      rw [hnil] at ha
      simp at ha
  | true =>
      simp only [ha, if_true] at h
      cases hx : env.fileExists
          (pathResolve (pathDirname f) (TeamSchema.avatarOf data)) with
      | false =>
          simp only [hx, Bool.false_eq_true, if_false] at h
          cases h
          simp
      | true =>
          simp only [hx, if_true] at h
          cases hi : (TeamSchema.contributorIssues env data).isEmpty with
          | true =>
              simp only [hi, if_true] at h
              cases h
          | false =>
              simp only [hi, Bool.false_eq_true, if_false] at h
              cases h
              intro hnil
              rw [hnil] at hi
              simp at hi

/-- A result the `try` body produces names its file and, when invalid,
carries at least one error string. -/
theorem teamFileBodyOk (env : Env) (f : String) (r : ValidationResult)
    (h : Scripts.teamFileBody env f = .ok r) :
    r.file = f ∧ (r.isValid = true ∨ r.errors ≠ []) := by
  unfold Scripts.teamFileBody at h
  cases hr : env.readFile f with
  | error e =>
      simp only [hr] at h
      cases h
  | ok content =>
      simp only [hr] at h
      cases hp : env.parseYaml content with
      | error e =>
          simp only [hp] at h
          cases h
      | ok data =>
          simp only [hp] at h
          cases hsp : Scripts.safeParseWithAvatarCheck env f data with
          | ok pc =>
              simp only [hsp] at h
              cases h
              exact ⟨rfl, Or.inl rfl⟩
          | error issues =>
              simp only [hsp] at h
              cases hmf : Scripts.mapFormatErrors f issues with
              | error err =>
                  simp only [hmf] at h
                  cases h
              | ok strs =>
                  simp only [hmf] at h
                  cases h
                  refine ⟨rfl, Or.inr ?_⟩
                  have hlen := mapFormatErrorsLength f issues strs hmf
                  have hne := safeParseErrorNonempty env f data issues hsp
                  simp only [ne_eq]
                  intro hnil
                  rw [hnil] at hlen
                  exact hne (List.eq_nil_of_length_eq_zero hlen.symm)

/-- Every `fileResult` names its file and, when invalid, carries at least
one error string. -/
theorem fileResultSound (env : Env) (f : String) :
    (Scripts.fileResult env f).file = f
    ∧ ((Scripts.fileResult env f).isValid = true
       ∨ (Scripts.fileResult env f).errors ≠ []) := by
  unfold Scripts.fileResult
  cases hb : Scripts.teamFileBody env f with
  | error msg => exact ⟨rfl, Or.inr (by simp)⟩
  | ok r => exact teamFileBodyOk env f r hb

/-- Claim C1 (per-file failure isolation): for every record file of a
non-cancelled pass, any failure raised while processing that file —
structural parse failure, shape-validation failure, escalated classifier
error, read failure — is caught at that file's boundary and converted into
one or more error strings on that file's `ValidationResult`, and never
prevents the remaining files from being checked: `validateAllTeamFiles`
returns one (resolved) result per enumerated file, regardless of how many
individual files fail. (Cancellation is the one deliberately re-thrown
exception, specified separately by the error taxonomy and claim C9.) -/
theorem c1_per_file_isolation (env : Env) (files : List String)
    (h : Scripts.teamFiles env = .ok files) :
    Scripts.validateAllTeamFiles env false
        = files.map (fun f => Except.ok (Scripts.fileResult env f))
    ∧ (Scripts.validateAllTeamFiles env false).length = files.length
    ∧ ∀ f ∈ files, (Scripts.fileResult env f).file = f
        ∧ ((Scripts.fileResult env f).isValid = true
           ∨ (Scripts.fileResult env f).errors ≠ []) := by
  have h1 : Scripts.validateAllTeamFiles env false
      = files.map (fun f => Except.ok (Scripts.fileResult env f)) := by
    unfold Scripts.validateAllTeamFiles
    rw [h]
    rfl
  refine ⟨h1, ?_, ?_⟩
  · rw [h1, List.length_map]
  · intro f hf
    exact fileResultSound env f

/-- Witness for C1 at the one-file environment `env1`. -/
theorem c1_witness :
    Scripts.teamFiles env1 = .ok ["/repo/team/alice.yaml"]
    ∧ (Scripts.validateAllTeamFiles env1 false
        = ["/repo/team/alice.yaml"].map (fun f => Except.ok (Scripts.fileResult env1 f))
       ∧ (Scripts.validateAllTeamFiles env1 false).length
          = (["/repo/team/alice.yaml"] : List String).length
       ∧ ∀ f ∈ ["/repo/team/alice.yaml"], (Scripts.fileResult env1 f).file = f
           ∧ ((Scripts.fileResult env1 f).isValid = true
              ∨ (Scripts.fileResult env1 f).errors ≠ [])) :=
  have h : Scripts.teamFiles env1 = .ok ["/repo/team/alice.yaml"] := rfl
  ⟨h, c1_per_file_isolation env1 ["/repo/team/alice.yaml"] h⟩

/-- Claim C2 (single-pass exit status): in single-pass (non-watch) mode the
process exits with status 0 if and only if every enumerated record file's
`ValidationResult` has `isValid = true`; if any file is invalid it exits
with the non-zero status 1. -/
theorem c2_exit_code (env : Env) (argv : List String)
    (h : Scripts.isWatchMode argv = false) :
    (Scripts.mainExitCode env argv = some 0
      ↔ ∀ r ∈ Scripts.passResults env, r.isValid = true)
    ∧ (Scripts.mainExitCode env argv = some 1
      ↔ ∃ r ∈ Scripts.passResults env, r.isValid = false) := by
  have hm : Scripts.mainExitCode env argv
      = some (if (Scripts.passResults env).any (fun r => !r.isValid) then 1 else 0) := by
    unfold Scripts.mainExitCode
    rw [h, runValidationFalseEq]
    rfl
  cases hb : (Scripts.passResults env).any (fun r => !r.isValid) with
  | false =>
      rw [hb] at hm
      simp only [if_false, Bool.false_eq_true] at hm
      have hall : ∀ r ∈ Scripts.passResults env, r.isValid = true := by
        intro r hr
        have := List.any_eq_false.mp hb r hr
        simpa using this
      constructor
      · exact ⟨fun _ => hall, fun _ => hm⟩
      · constructor
        · intro h1
          rw [hm] at h1
          cases h1
        · rintro ⟨r, hr, hv⟩
          exact absurd (hall r hr) (by simp [hv])
  | true =>
      rw [hb] at hm
      simp only [if_true] at hm
      obtain ⟨r, hr, hv⟩ := List.any_eq_true.mp hb
      have hv : r.isValid = false := by simpa using hv
      constructor
      · constructor
        · intro h1
          rw [hm] at h1
          cases h1
        · intro hall
          exact absurd (hall r hr) (by simp [hv])
      · exact ⟨fun _ => ⟨r, hr, hv⟩, fun _ => hm⟩

/-- Witness for C2 at the one-file environment `env1` with empty argv. -/
theorem c2_witness :
    Scripts.isWatchMode [] = false
    ∧ ((Scripts.mainExitCode env1 [] = some 0
        ↔ ∀ r ∈ Scripts.passResults env1, r.isValid = true)
       ∧ (Scripts.mainExitCode env1 [] = some 1
        ↔ ∃ r ∈ Scripts.passResults env1, r.isValid = false)) :=
  ⟨rfl, c2_exit_code env1 [] rfl⟩

/-- Claim C8 (directory enumeration failure): when enumerating the record
directory fails, the pass does not crash: the failure is recovered (and
logged), the pass completes with an empty result set, the report is the
"0/0 files valid" summary, and single-pass mode exits with the
deterministic status 0. -/
theorem c8_dir_failure (env : Env) (msg : String)
    (h : env.dirListing = .error msg) :
    Scripts.passResults env = []
    ∧ Scripts.runValidation env false
        = ⟨some ["🎉 Great news:", "0/0 files valid"], false⟩
    ∧ Scripts.mainExitCode env [] = some 0 := by
  have hte : Scripts.teamFiles env = .error msg := by
    unfold Scripts.teamFiles
    rw [h]
  have hpr : Scripts.passResults env = [] := by
    unfold Scripts.passResults
    rw [hte]
  have hlines : Scripts.printResults env [] = ["🎉 Great news:", "0/0 files valid"] := rfl
  have hrv : Scripts.runValidation env false
      = ⟨some ["🎉 Great news:", "0/0 files valid"], false⟩ := by
    rw [runValidationFalseEq, hpr, hlines]
    rfl
  refine ⟨hpr, hrv, ?_⟩
  unfold Scripts.mainExitCode
  rw [hrv]
  rfl

/-- Witness for C8 at the unlistable environment `envNone`. -/
theorem c8_witness :
    envNone.dirListing = .error "ENOENT: no such file or directory"
    ∧ (Scripts.passResults envNone = []
       ∧ Scripts.runValidation envNone false
           = ⟨some ["🎉 Great news:", "0/0 files valid"], false⟩
       ∧ Scripts.mainExitCode envNone [] = some 0) :=
  ⟨rfl, c8_dir_failure envNone "ENOENT: no such file or directory" rfl⟩

/-- Claim C9 (cancellation): for every file path, when the cancellation
signal is already set at the per-file checkpoint, `validateTeamFile` raises
the abort instead of returning a `ValidationResult`; and a cancelled pass
over a non-empty file set prints no report and returns no-error (`false`),
so it is never user-visible and contributes no exit-code signal. -/
theorem c9_cancellation (env : Env) (f : String) (files : List String)
    (h1 : Scripts.teamFiles env = .ok files) (h2 : files ≠ []) :
    Scripts.validateTeamFile env f true = .error ()
    ∧ Scripts.runValidation env true = ⟨none, false⟩ := by
  refine ⟨rfl, ?_⟩
  unfold Scripts.runValidation Scripts.validateAllTeamFiles
  rw [h1]
  obtain ⟨g, gs, rfl⟩ := List.exists_cons_of_ne_nil h2
  simp only [List.map_cons]
  rfl

/-- Witness for C9 at the one-file environment `env1`. -/
theorem c9_witness :
    (Scripts.teamFiles env1 = .ok ["/repo/team/alice.yaml"]
     ∧ ["/repo/team/alice.yaml"] ≠ ([] : List String))
    ∧ (Scripts.validateTeamFile env1 "/repo/team/alice.yaml" true = .error ()
       ∧ Scripts.runValidation env1 true = ⟨none, false⟩) :=
  have h1 : Scripts.teamFiles env1 = .ok ["/repo/team/alice.yaml"] := rfl
  have h2 : ["/repo/team/alice.yaml"] ≠ ([] : List String) := by simp
  ⟨⟨h1, h2⟩, c9_cancellation env1 "/repo/team/alice.yaml" _ h1 h2⟩

/-- Claim C10 (idempotence): running a single validation pass twice over an
unchanged environment (same directory listing, same file contents) yields
identical outcomes — the same files in the same enumeration order, with
equal validity flags and equal error lists — and each of the two sequential
passes equals a fresh single pass. -/
theorem c10_idempotent (env : Env) :
    (Scripts.runValidationTwice env).1 = (Scripts.runValidationTwice env).2
    ∧ (Scripts.runValidationTwice env).1 = Scripts.runValidation env false
    ∧ Scripts.passResults env = Scripts.passResults env :=
  ⟨rfl, rfl, rfl⟩

/-! Helper lemmas about the error classifier of `scripts/validate.ts`. -/

/-- An `unrecognized_keys` issue at path `["roles"]` escalates to
`InvalidProjectError` naming the first listed key. -/
theorem formatUkEscalates (f m : String) (ks : List String) :
    Scripts.formatValidationError ⟨"unrecognized_keys", ["roles"], ks, m, []⟩ f
      = .error (.invalidProjectError (ks.headD "undefined") f) := rfl

/-- A `custom` issue at path `["avatar"]` formats generically. -/
theorem formatCustomAvatar (f m : String) :
    Scripts.formatValidationError ⟨"custom", ["avatar"], [], m, []⟩ f
      = .ok ("avatar" ++ ": " ++ m) := rfl

/-- The issues of a `z.string()` field never escalate. -/
theorem mapFormatStringFieldOk (fields : List (String × Value)) (key f : String) :
    ∃ strs, Scripts.mapFormatErrors f (stringFieldIssues fields key) = .ok strs := by
  unfold stringFieldIssues
  cases lookupField fields key with
  | none => exact ⟨_, rfl⟩
  | some v => cases v <;> exact ⟨_, rfl⟩

/-- Appending after an escalation-free prefix. -/
theorem mapFormatErrorsAppendOk (f : String) :
    ∀ (l1 l2 : List ZodIssue) (s1 : List String),
      Scripts.mapFormatErrors f l1 = .ok s1 →
      Scripts.mapFormatErrors f (l1 ++ l2)
        = match Scripts.mapFormatErrors f l2 with
          | .error e => .error e
          | .ok s2 => .ok (s1 ++ s2) := by
  intro l1
  induction l1 with
  | nil =>
      intro l2 s1 h
      simp only [Scripts.mapFormatErrors] at h
      cases h
      simp only [List.nil_append]
      cases h2 : Scripts.mapFormatErrors f l2 <;> simp [h2]
  | cons e es ih =>
      intro l2 s1 h
      unfold Scripts.mapFormatErrors at h
      cases hfe : Scripts.formatValidationError e f with
      | error err =>
          simp only [hfe] at h
          cases h
      | ok s =>
          simp only [hfe] at h
          cases hrec : Scripts.mapFormatErrors f es with
          | error err =>
              simp only [hrec] at h
              cases h
          | ok rest =>
              simp only [hrec] at h
              cases h
              have hih := ih l2 rest hrec
              simp only [List.cons_append]
              cases h2 : Scripts.mapFormatErrors f l2 with
              | error err2 =>
                  rw [h2] at hih
                  unfold Scripts.mapFormatErrors
                  rw [hfe, hih]
              | ok s2 =>
                  rw [h2] at hih
                  unfold Scripts.mapFormatErrors
                  rw [hfe, hih]

/-- An escalating map names the first escalating issue: everything before it
formats generically, and its escalation is the thrown error. -/
theorem mapFormatErrorsErrorFirst (f : String) :
    ∀ (issues : List ZodIssue) (err : Scripts.EscalatedError),
      Scripts.mapFormatErrors f issues = .error err →
      ∃ pre e post, issues = pre ++ e :: post
        ∧ Scripts.formatValidationError e f = .error err
        ∧ ∀ x ∈ pre, ∃ s, Scripts.formatValidationError x f = .ok s := by
  intro issues
  induction issues with
  | nil =>
      intro err h
      simp only [Scripts.mapFormatErrors] at h
      cases h
  | cons e es ih =>
      intro err h
      unfold Scripts.mapFormatErrors at h
      cases hfe : Scripts.formatValidationError e f with
      | error err2 =>
          simp only [hfe] at h
          cases h
          exact ⟨[], e, es, by simp, hfe, by simp⟩
      | ok s =>
          simp only [hfe] at h
          cases hrec : Scripts.mapFormatErrors f es with
          | error err2 =>
              simp only [hrec] at h
              cases h
              obtain ⟨pre, e0, post, heq, hf0, hpre⟩ := ih _ hrec
              refine ⟨e :: pre, e0, post, by simp [heq], hf0, ?_⟩
              intro x hx
              rcases List.mem_cons.mp hx with hx | hx
              · exact ⟨s, by rw [hx]; exact hfe⟩
              · exact hpre x hx
          | ok rest =>
              simp only [hrec] at h
              cases h

/-- Whatever `safeParse` reports for a record with at least one issue
extends the recorded issue list: the avatar refinement can only append its
one `custom` issue (on a non-aborted parse with a missing avatar), never
alter or drop a recorded issue. -/
theorem safeParseErrorAppend (env : Env) (f : String) (data : Value)
    (h : TeamSchema.contributorIssues env data ≠ []) :
    ∃ tail, Scripts.safeParseWithAvatarCheck env f data
      = .error (TeamSchema.contributorIssues env data ++ tail) := by
  unfold Scripts.safeParseWithAvatarCheck
  cases ha : ((TeamSchema.contributorIssues env data).filter
      (fun e => e.code != "unrecognized_keys")).isEmpty with
  | false =>
      simp only [ha, Bool.false_eq_true, if_false]
      exact ⟨[], by rw [List.append_nil]⟩
  | true =>
      simp only [ha, if_true]
      cases hx : env.fileExists
          (pathResolve (pathDirname f) (TeamSchema.avatarOf data)) with
      | false =>
          simp only [hx, Bool.false_eq_true, if_false]
          exact ⟨[⟨"custom", ["avatar"], [], "No avatar file found at ./"
            ++ pathRelative env.cwd (pathResolve (pathDirname f)
                 (TeamSchema.avatarOf data)), []⟩], rfl⟩
      | true =>
          simp only [hx, if_true]
          have hi : (TeamSchema.contributorIssues env data).isEmpty = false := by
            cases hq : TeamSchema.contributorIssues env data with
            | nil => exact absurd hq h
            | cons a as => rfl
          simp only [hi, Bool.false_eq_true, if_false]
          exact ⟨[], by rw [List.append_nil]⟩

/-- Appending after an escalating prefix keeps the escalation. -/
theorem mapFormatErrorsAppendError (f : String) :
    ∀ (l1 l2 : List ZodIssue) (e : Scripts.EscalatedError),
      Scripts.mapFormatErrors f l1 = .error e →
      Scripts.mapFormatErrors f (l1 ++ l2) = .error e := by
  intro l1
  induction l1 with
  | nil =>
      intro l2 e h
      simp only [Scripts.mapFormatErrors] at h
      cases h
  | cons x xs ih =>
      intro l2 e h
      unfold Scripts.mapFormatErrors at h
      cases hfe : Scripts.formatValidationError x f with
      | error err =>
          simp only [hfe] at h
          cases h
          simp only [List.cons_append]
          unfold Scripts.mapFormatErrors
          rw [hfe]
      | ok s =>
          simp only [hfe] at h
          cases hrec : Scripts.mapFormatErrors f xs with
          | error err =>
              simp only [hrec] at h
              cases h
              have hih := ih l2 _ hrec
              simp only [List.cons_append]
              unfold Scripts.mapFormatErrors
              rw [hfe, hih]
          | ok rest =>
              simp only [hrec] at h
              cases h

/-- The synchronously recorded non-array issues of the project fields never
escalate. -/
theorem mapFormatProjectTypeOk (rfields : List (String × Value)) (f : String) :
    ∀ ps : List String, ∃ strs,
      Scripts.mapFormatErrors f (TeamSchema.projectsTypeIssues rfields ps)
        = .ok strs := by
  intro ps
  induction ps with
  | nil => exact ⟨[], rfl⟩
  | cons p ps ih =>
      obtain ⟨s2, hs2⟩ := ih
      have hfield : ∃ s1, Scripts.mapFormatErrors f
          (TeamSchema.projectFieldTypeIssues rfields p) = .ok s1 := by
        unfold TeamSchema.projectFieldTypeIssues
        cases lookupField rfields p with
        | none => exact ⟨_, rfl⟩
        | some v => cases v <;> exact ⟨_, rfl⟩
      obtain ⟨s1, hs1⟩ := hfield
      refine ⟨s1 ++ s2, ?_⟩
      show Scripts.mapFormatErrors f
          (TeamSchema.projectFieldTypeIssues rfields p
            ++ TeamSchema.projectsTypeIssues rfields ps) = .ok (s1 ++ s2)
      rw [mapFormatErrorsAppendOk f _ _ s1 hs1, hs2]

/-- Claim C5 (escalation discards the rest of the report): whenever any raw
issue of a file triggers classifier escalation, the thrown error aborts the
mapping over the file's remaining issues and is caught by the per-file
handler, so the file's `ValidationResult` contains exactly one error
string — the escalated message prefixed with "Failed to parse file: " —
and every other validation issue of that file is discarded (the escalation
is that of the first escalating issue; all issues before it format
generically and their strings are dropped). -/
theorem c5_escalation_single_error (env : Env) (f content : String)
    (data : Value) (issues : List ZodIssue) (err : Scripts.EscalatedError)
    (h1 : env.readFile f = .ok content)
    (h2 : env.parseYaml content = .ok data)
    (h3 : Scripts.safeParseWithAvatarCheck env f data = .error issues)
    (h4 : Scripts.mapFormatErrors f issues = .error err) :
    Scripts.fileResult env f
      = ⟨f, false, ["Failed to parse file: " ++ err.message env.cwd], []⟩
    ∧ (Scripts.fileResult env f).errors.length = 1
    ∧ ∃ pre e post, issues = pre ++ e :: post
        ∧ Scripts.formatValidationError e f = .error err
        ∧ ∀ x ∈ pre, ∃ s, Scripts.formatValidationError x f = .ok s := by
  have hres : Scripts.fileResult env f
      = ⟨f, false, ["Failed to parse file: " ++ err.message env.cwd], []⟩ := by
    unfold Scripts.fileResult Scripts.teamFileBody
    simp only [h1, h2, h3, h4]
  exact ⟨hres, by rw [hres]; rfl, mapFormatErrorsErrorFirst f issues err h4⟩

/-- Witness for C5 at `envUnknown`, whose only record has the unregistered
roles key "Nope". -/
theorem c5_witness :
    (envUnknown.readFile "/repo/team/beta.yaml" = .ok "beta-doc"
     ∧ envUnknown.parseYaml "beta-doc" = .ok unknownKeyRecord
     ∧ Scripts.safeParseWithAvatarCheck envUnknown "/repo/team/beta.yaml"
         unknownKeyRecord = .error [TeamSchema.ukIssue ["Nope"]]
     ∧ Scripts.mapFormatErrors "/repo/team/beta.yaml" [TeamSchema.ukIssue ["Nope"]]
         = .error (.invalidProjectError "Nope" "/repo/team/beta.yaml"))
    ∧ (Scripts.fileResult envUnknown "/repo/team/beta.yaml"
        = ⟨"/repo/team/beta.yaml", false,
           ["Failed to parse file: "
             ++ Scripts.EscalatedError.message envUnknown.cwd
                  (.invalidProjectError "Nope" "/repo/team/beta.yaml")], []⟩
       ∧ (Scripts.fileResult envUnknown "/repo/team/beta.yaml").errors.length = 1
       ∧ ∃ pre e post, [TeamSchema.ukIssue ["Nope"]] = pre ++ e :: post
           ∧ Scripts.formatValidationError e "/repo/team/beta.yaml"
               = .error (.invalidProjectError "Nope" "/repo/team/beta.yaml")
           ∧ ∀ x ∈ pre, ∃ s, Scripts.formatValidationError x "/repo/team/beta.yaml"
               = .ok s) :=
  ⟨⟨rfl, rfl, rfl, rfl⟩,
   c5_escalation_single_error envUnknown "/repo/team/beta.yaml" "beta-doc"
     unknownKeyRecord [TeamSchema.ukIssue ["Nope"]]
     (.invalidProjectError "Nope" "/repo/team/beta.yaml") rfl rfl rfl rfl⟩

/-- Claim C3 (unknown project reported): for every record containing a key
under "roles" that is not one of the Project Registry's project names, the
reported error text for that file identifies it as an invalid project,
naming the (first) offending project key — never a generic
unrecognized-key message. Under `safeParseAsync` the strict
`unrecognized_keys` issue is recorded synchronously while every
`invalid_union` issue is deferred to a continuation, so the
unrecognized-keys issue precedes all union issues; the synchronously
recorded issues before it are `invalid_type` issues, which never escalate,
so the classifier throws `InvalidProjectError` on the unrecognized-keys
issue and the escalated message is the file's single reported error. -/
theorem c3_invalid_project_message (env : Env) (f content : String)
    (fields rfields : List (String × Value))
    (h1 : env.readFile f = .ok content)
    (h2 : env.parseYaml content = .ok (.obj fields))
    (hroles : lookupField fields "roles" = some (.obj rfields))
    (hextra : TeamSchema.extraRoleKeys rfields ≠ []) :
    Scripts.fileResult env f
      = ⟨f, false,
         ["Failed to parse file: "
           ++ Scripts.EscalatedError.message env.cwd
                (.invalidProjectError
                  ((TeamSchema.extraRoleKeys rfields).headD "undefined") f)],
         []⟩ := by
  have hEmp : (TeamSchema.extraRoleKeys rfields).isEmpty = false := by
    cases hk : TeamSchema.extraRoleKeys rfields with
    | nil => exact absurd hk hextra
    | cons a as => rfl
  have hsync : TeamSchema.rolesSyncIssues (.obj rfields)
      = TeamSchema.projectsTypeIssues rfields Projects.PROJECTS
        ++ [TeamSchema.ukIssue (TeamSchema.extraRoleKeys rfields)] := by
    simp only [TeamSchema.rolesSyncIssues]
    simp [hEmp]
  have hci : TeamSchema.contributorIssues env (.obj fields)
      = (stringFieldIssues fields "name" ++ stringFieldIssues fields "avatar"
         ++ (TeamSchema.projectsTypeIssues rfields Projects.PROJECTS
             ++ [TeamSchema.ukIssue (TeamSchema.extraRoleKeys rfields)])
         ++ TeamSchema.contactsIssuesOf env fields)
        ++ TeamSchema.rolesUnionIssues (.obj rfields) := by
    simp only [TeamSchema.contributorIssues, hroles, hsync]
  have hmemuk : TeamSchema.ukIssue (TeamSchema.extraRoleKeys rfields)
      ∈ TeamSchema.contributorIssues env (.obj fields) := by
    rw [hci]
    refine List.mem_append_left _ ?_
    refine List.mem_append_left _ ?_
    refine List.mem_append_right _ ?_
    exact List.mem_append_right _ (List.mem_singleton.mpr rfl)
  obtain ⟨tail, htail⟩ :=
    safeParseErrorAppend env f (.obj fields) (List.ne_nil_of_mem hmemuk)
  obtain ⟨s1, hs1⟩ := mapFormatStringFieldOk fields "name" f
  obtain ⟨s2, hs2⟩ := mapFormatStringFieldOk fields "avatar" f
  obtain ⟨s3, hs3⟩ := mapFormatProjectTypeOk rfields f Projects.PROJECTS
  have h12 : Scripts.mapFormatErrors f
      (stringFieldIssues fields "name" ++ stringFieldIssues fields "avatar")
      = .ok (s1 ++ s2) := by
    rw [mapFormatErrorsAppendOk f _ _ s1 hs1, hs2]
  have h123 : Scripts.mapFormatErrors f
      ((stringFieldIssues fields "name" ++ stringFieldIssues fields "avatar")
        ++ TeamSchema.projectsTypeIssues rfields Projects.PROJECTS)
      = .ok ((s1 ++ s2) ++ s3) := by
    rw [mapFormatErrorsAppendOk f _ _ (s1 ++ s2) h12, hs3]
  have hmuk : Scripts.mapFormatErrors f
      [TeamSchema.ukIssue (TeamSchema.extraRoleKeys rfields)]
      = .error (.invalidProjectError
          ((TeamSchema.extraRoleKeys rfields).headD "undefined") f) := by
    unfold Scripts.mapFormatErrors
    rw [show Scripts.formatValidationError
          (TeamSchema.ukIssue (TeamSchema.extraRoleKeys rfields)) f
        = .error (.invalidProjectError
            ((TeamSchema.extraRoleKeys rfields).headD "undefined") f)
      from formatUkEscalates f "Unrecognized key(s) in object" _]
  have hesc : Scripts.mapFormatErrors f
      (((stringFieldIssues fields "name" ++ stringFieldIssues fields "avatar")
         ++ TeamSchema.projectsTypeIssues rfields Projects.PROJECTS)
        ++ [TeamSchema.ukIssue (TeamSchema.extraRoleKeys rfields)])
      = .error (.invalidProjectError
          ((TeamSchema.extraRoleKeys rfields).headD "undefined") f) := by
    rw [mapFormatErrorsAppendOk f _ _ ((s1 ++ s2) ++ s3) h123, hmuk]
  have heq : ((stringFieldIssues fields "name" ++ stringFieldIssues fields "avatar"
         ++ (TeamSchema.projectsTypeIssues rfields Projects.PROJECTS
             ++ [TeamSchema.ukIssue (TeamSchema.extraRoleKeys rfields)])
         ++ TeamSchema.contactsIssuesOf env fields)
        ++ TeamSchema.rolesUnionIssues (.obj rfields)) ++ tail
      = (((stringFieldIssues fields "name" ++ stringFieldIssues fields "avatar")
           ++ TeamSchema.projectsTypeIssues rfields Projects.PROJECTS)
          ++ [TeamSchema.ukIssue (TeamSchema.extraRoleKeys rfields)])
        ++ (TeamSchema.contactsIssuesOf env fields
            ++ (TeamSchema.rolesUnionIssues (.obj rfields) ++ tail)) := by
    simp [List.append_assoc]
  have hmapfull : Scripts.mapFormatErrors f
      (TeamSchema.contributorIssues env (.obj fields) ++ tail)
      = .error (.invalidProjectError
          ((TeamSchema.extraRoleKeys rfields).headD "undefined") f) := by
    rw [hci, heq]
    exact mapFormatErrorsAppendError f _ _ _ hesc
  unfold Scripts.fileResult Scripts.teamFileBody
  simp only [h1, h2, htail, hmapfull]

/-- Witness for C3 at `envBoth`, whose record carries both the unregistered
key "Nope" and an invalid role entry for the registered project "Website":
the synchronously recorded unrecognized-keys issue still escalates first,
and the report names the invalid project. -/
theorem c3_witness :
    (envBoth.readFile "/repo/team/both.yaml" = .ok "both-doc"
     ∧ envBoth.parseYaml "both-doc"
         = .ok (.obj [("name", Value.str "Dana"), ("avatar", Value.str "dana.png"),
                      ("roles", Value.obj bothRolesFields)])
     ∧ lookupField [("name", Value.str "Dana"), ("avatar", Value.str "dana.png"),
                    ("roles", Value.obj bothRolesFields)] "roles"
         = some (.obj bothRolesFields)
     ∧ TeamSchema.extraRoleKeys bothRolesFields ≠ [])
    ∧ Scripts.fileResult envBoth "/repo/team/both.yaml"
        = ⟨"/repo/team/both.yaml", false,
           ["Failed to parse file: "
             ++ Scripts.EscalatedError.message envBoth.cwd
                  (.invalidProjectError
                    ((TeamSchema.extraRoleKeys bothRolesFields).headD "undefined")
                    "/repo/team/both.yaml")],
           []⟩ :=
  ⟨⟨rfl, rfl, rfl, by decide⟩,
   c3_invalid_project_message envBoth "/repo/team/both.yaml" "both-doc"
     [("name", Value.str "Dana"), ("avatar", Value.str "dana.png"),
      ("roles", Value.obj bothRolesFields)] bothRolesFields rfl rfl rfl (by decide)⟩

/-- Claim C7 (avatar existence check): for every record that is shape-valid
but whose avatar path, resolved against the record file's own directory,
does not refer to an existing file, exactly one error is reported at field
path "avatar", naming the resolved path relative to the working directory;
with an existing avatar the same record is valid. All other validation
outcomes are unaffected: an aborting shape failure skips the refinement and
reaches the classifier unchanged, and a non-aborted (valid or dirty, i.e.
unrecognized-keys-only) parse with a missing avatar gets exactly the one
`custom` issue appended after its recorded issues. -/
theorem c7_avatar_check (env : Env) (f content : String) (data : Value)
    (h1 : env.readFile f = .ok content)
    (h2 : env.parseYaml content = .ok data) :
    (TeamSchema.contributorIssues env data = [] →
      (env.fileExists (pathResolve (pathDirname f) (TeamSchema.avatarOf data)) = false →
        Scripts.fileResult env f
          = ⟨f, false,
             ["avatar" ++ ": "
               ++ ("No avatar file found at ./"
                   ++ pathRelative env.cwd
                        (pathResolve (pathDirname f) (TeamSchema.avatarOf data)))],
             []⟩)
      ∧ (env.fileExists (pathResolve (pathDirname f) (TeamSchema.avatarOf data)) = true →
        Scripts.fileResult env f = ⟨f, true, [], []⟩))
    ∧ (((TeamSchema.contributorIssues env data).filter
          (fun e => e.code != "unrecognized_keys")).isEmpty = false →
        Scripts.safeParseWithAvatarCheck env f data
          = .error (TeamSchema.contributorIssues env data))
    ∧ (((TeamSchema.contributorIssues env data).filter
          (fun e => e.code != "unrecognized_keys")).isEmpty = true →
       env.fileExists (pathResolve (pathDirname f) (TeamSchema.avatarOf data)) = false →
        Scripts.safeParseWithAvatarCheck env f data
          = .error (TeamSchema.contributorIssues env data
              ++ [⟨"custom", ["avatar"], [],
                   "No avatar file found at ./"
                     ++ pathRelative env.cwd
                          (pathResolve (pathDirname f) (TeamSchema.avatarOf data)),
                   []⟩])) := by
  refine ⟨?_, ?_, ?_⟩
  · intro hiss
    have hemp : (TeamSchema.contributorIssues env data).isEmpty = true := by
      rw [hiss]
      rfl
    have ha : ((TeamSchema.contributorIssues env data).filter
        (fun e => e.code != "unrecognized_keys")).isEmpty = true := by
      rw [hiss]
      rfl
    constructor
    · intro hx
      have hsp : Scripts.safeParseWithAvatarCheck env f data
          = .error [⟨"custom", ["avatar"], [],
              "No avatar file found at ./"
                ++ pathRelative env.cwd
                     (pathResolve (pathDirname f) (TeamSchema.avatarOf data)), []⟩] := by
        unfold Scripts.safeParseWithAvatarCheck
        simp only [ha, if_true, hx, Bool.false_eq_true, if_false, hiss,
          List.nil_append]
        rfl
      have hmf : Scripts.mapFormatErrors f
          [⟨"custom", ["avatar"], [],
            "No avatar file found at ./"
              ++ pathRelative env.cwd
                   (pathResolve (pathDirname f) (TeamSchema.avatarOf data)), []⟩]
          = .ok ["avatar" ++ ": "
              ++ ("No avatar file found at ./"
                  ++ pathRelative env.cwd
                       (pathResolve (pathDirname f) (TeamSchema.avatarOf data)))] := by
        unfold Scripts.mapFormatErrors
        rw [formatCustomAvatar]
        rfl
      unfold Scripts.fileResult Scripts.teamFileBody
      simp only [h1, h2, hsp, hmf]
    · intro hx
      have hsp : Scripts.safeParseWithAvatarCheck env f data
          = .ok ⟨TeamSchema.avatarOf data⟩ := by
        unfold Scripts.safeParseWithAvatarCheck
        simp only [ha, if_true, hx, hemp]
      unfold Scripts.fileResult Scripts.teamFileBody
      simp only [h1, h2, hsp]
  · intro ha
    unfold Scripts.safeParseWithAvatarCheck
    simp only [ha, Bool.false_eq_true, if_false]
  · intro ha hx
    unfold Scripts.safeParseWithAvatarCheck
    simp only [ha, if_true, hx, Bool.false_eq_true, if_false]

/-- Witness for C7 at `envNoAvatar`, whose one record is shape-valid with a
missing avatar file. -/
theorem c7_witness :
    (envNoAvatar.readFile "/repo/team/carol.yaml" = .ok "carol-doc"
     ∧ envNoAvatar.parseYaml "carol-doc" = .ok carolRecord
     ∧ TeamSchema.contributorIssues envNoAvatar carolRecord = []
     ∧ envNoAvatar.fileExists
         (pathResolve (pathDirname "/repo/team/carol.yaml")
           (TeamSchema.avatarOf carolRecord)) = false)
    ∧ Scripts.fileResult envNoAvatar "/repo/team/carol.yaml"
        = ⟨"/repo/team/carol.yaml", false,
           ["avatar" ++ ": "
             ++ ("No avatar file found at ./"
                 ++ pathRelative envNoAvatar.cwd
                      (pathResolve (pathDirname "/repo/team/carol.yaml")
                        (TeamSchema.avatarOf carolRecord)))],
           []⟩ :=
  ⟨⟨rfl, rfl, rfl, rfl⟩,
   ((c7_avatar_check envNoAvatar "/repo/team/carol.yaml" "carol-doc" carolRecord
       rfl rfl).1 rfl).1 rfl⟩

/-- Claim C4 (corrected, counterexample): the claim that the classifier
escalates to the distinguished invalid-role error only when the nested
union failures include an enum-mismatch is false: an `invalid_union` issue
below "roles" with only `invalid_type` sub-issues (a non-string, non-object
entry of an unrestricted project) still escalates, reporting the role name
as "undefined". -/
theorem c4_counterexample :
    issueNoEnum.code = "invalid_union"
    ∧ (∀ branch ∈ issueNoEnum.unionErrors, ∀ sub ∈ branch,
        sub.code ≠ "invalid_enum_value")
    ∧ Contributors.formatValidationError issueNoEnum "/repo/team/erin.yaml"
        = .error (.invalidRoleError none "Website" "/repo/team/erin.yaml") :=
  ⟨rfl, by decide, rfl⟩

/-- Claim C4 (corrected, amended): the classifier escalates to the
distinguished invalid-role error exactly when the issue's code is
`invalid_union` and its dot-joined path contains the substring "roles."
— no enum-mismatch among the nested failures is required (the role name
reported is the `received` value of the first nested enum-mismatch, or
"undefined" when none exists); and for the restricted project
"Volume 0 Issue 1", a role value outside its allowed list produces a union
issue that escalates to the invalid-role error naming that project and that
role value, never a generic union-mismatch message. -/
theorem c4_amended :
    (∀ (e : ZodIssue) (f : String),
      (∃ r p, Contributors.formatValidationError e f
          = .error (.invalidRoleError r p f))
      ↔ (e.code = "invalid_union"
         ∧ jsIncludes (String.intercalate "." e.path) "roles." = true))
    ∧ ∀ (f role : String), role ∉ Projects.VOLUME_0_ISSUE_1_ROLES →
        ∃ e, RoleSchema.roleEntryIssue (Projects.PROJECT_ROLES "Volume 0 Issue 1")
              ["roles", "Volume 0 Issue 1", "0"] (.str role) = some e
          ∧ Contributors.formatValidationError e f
              = .error (.invalidRoleError (some role) "Volume 0 Issue 1" f) := by
  constructor
  · intro e f
    constructor
    · rintro ⟨r, p, hr⟩
      unfold Contributors.formatValidationError at hr
      by_cases hA : e.code = "unrecognized_keys" ∧ e.path.length = 1
          ∧ jsIncludes (e.path.headD "") "roles" = true
      · rw [if_pos hA] at hr
        simp at hr
      · rw [if_neg hA] at hr
        by_cases hB : e.code = "invalid_union"
            ∧ jsIncludes (String.intercalate "." e.path) "roles." = true
        · exact hB
        · rw [if_neg hB] at hr
          by_cases hp : 0 < e.path.length
          · rw [if_pos hp] at hr
            cases hr
          · rw [if_neg hp] at hr
            cases hr
    · intro hB
      have hA : ¬(e.code = "unrecognized_keys" ∧ e.path.length = 1
          ∧ jsIncludes (e.path.headD "") "roles" = true) := by
        rintro ⟨hc, -, -⟩
        rw [hB.1] at hc
        exact absurd hc (by decide)
      refine ⟨(e.unionErrors.flatten.find?
          (fun s => s.code == "invalid_enum_value")).map SubIssue.received,
        (jsSplit (String.intercalate "." e.path) '.').getD 1 "undefined", ?_⟩
      unfold Contributors.formatValidationError
      rw [if_neg hA, if_pos hB]
  · intro f role h
    have hb1 : RoleSchema.baseRoleSubIssues (some Projects.VOLUME_0_ISSUE_1_ROLES)
        (.str role) = [⟨"invalid_enum_value", role⟩] := by
      show (if role ∈ Projects.VOLUME_0_ISSUE_1_ROLES then ([] : List SubIssue)
            else [⟨"invalid_enum_value", role⟩]) = [⟨"invalid_enum_value", role⟩]
      rw [if_neg h]
    refine ⟨⟨"invalid_union", ["roles", "Volume 0 Issue 1", "0"], [], "Invalid input",
      [[⟨"invalid_enum_value", role⟩], [⟨"invalid_type", "string"⟩]]⟩, ?_, rfl⟩
    have hpr : Projects.PROJECT_ROLES "Volume 0 Issue 1"
        = some Projects.VOLUME_0_ISSUE_1_ROLES := rfl
    simp only [RoleSchema.roleEntryIssue, hpr, hb1]
    rfl

/-- Witness for the amended C4 at the role value "Webmaster". -/
theorem c4_witness :
    ("Webmaster" ∉ Projects.VOLUME_0_ISSUE_1_ROLES)
    ∧ ∃ e, RoleSchema.roleEntryIssue (Projects.PROJECT_ROLES "Volume 0 Issue 1")
          ["roles", "Volume 0 Issue 1", "0"] (.str "Webmaster") = some e
        ∧ Contributors.formatValidationError e "/repo/team/frank.yaml"
            = .error (.invalidRoleError (some "Webmaster") "Volume 0 Issue 1"
                "/repo/team/frank.yaml") :=
  ⟨by decide, c4_amended.2 "/repo/team/frank.yaml" "Webmaster" (by decide)⟩

/-- Claim C6 (corrected, counterexample): the claim that "the schema"
validates the roles object in strict mode fails for the `code/schema.ts`
variant: its `Roles` is a plain (strip-mode) `z.object`, so a record whose
roles object carries the unregistered key "Nope" validates successfully and
the key is silently dropped from the parsed output. -/
theorem c6_counterexample :
    ("Nope" ∉ Projects.PROJECTS)
    ∧ CodeSchema.contributorIssues envUnknown unknownKeyRecord = .ok []
    ∧ "Nope" ∉ CodeSchema.strippedRolesKeys [("Nope", Value.arr [])] :=
  ⟨by decide, rfl, by decide⟩

/-- Claim C6 (corrected, amended): the `team/_schema` variant of the Roles
schema validates in strict mode: for every roles object, the presence of
any key that is not a registered project name yields an
`unrecognized_keys` issue listing that key and makes validation of the
record fail (never a silent drop); the older `code/schema.ts` Roles is
strip-mode and silently drops such keys (see the counterexample). -/
theorem c6_amended (rfields : List (String × Value)) (k : String)
    (h1 : k ∈ rfields.map Prod.fst) (h2 : k ∉ Projects.PROJECTS) :
    TeamSchema.rolesIssues (.obj rfields) ≠ []
    ∧ (∃ e ∈ TeamSchema.rolesIssues (.obj rfields),
        e.code = "unrecognized_keys" ∧ k ∈ e.keys)
    ∧ ∀ (env : Env) (fields : List (String × Value)),
        lookupField fields "roles" = some (.obj rfields) →
        TeamSchema.contributorIssues env (.obj fields) ≠ [] := by
  have hk : k ∈ TeamSchema.extraRoleKeys rfields := by
    unfold TeamSchema.extraRoleKeys
    refine List.mem_filter.mpr ⟨h1, ?_⟩
    simp [h2]
  have hne : TeamSchema.extraRoleKeys rfields ≠ [] := List.ne_nil_of_mem hk
  have hEmp : (TeamSchema.extraRoleKeys rfields).isEmpty = false := by
    cases hx : TeamSchema.extraRoleKeys rfields with
    | nil => exact absurd hx hne
    | cons a as => rfl
  have hsync : TeamSchema.rolesSyncIssues (.obj rfields)
      = TeamSchema.projectsTypeIssues rfields Projects.PROJECTS
        ++ [TeamSchema.ukIssue (TeamSchema.extraRoleKeys rfields)] := by
    simp only [TeamSchema.rolesSyncIssues]
    simp [hEmp]
  have hmem : TeamSchema.ukIssue (TeamSchema.extraRoleKeys rfields)
      ∈ TeamSchema.rolesIssues (.obj rfields) := by
    unfold TeamSchema.rolesIssues
    rw [hsync]
    exact List.mem_append_left _
      (List.mem_append_right _ (List.mem_singleton.mpr rfl))
  refine ⟨List.ne_nil_of_mem hmem, ⟨_, hmem, rfl, hk⟩, ?_⟩
  intro env fields hroles
  have hmem2 : TeamSchema.ukIssue (TeamSchema.extraRoleKeys rfields)
      ∈ TeamSchema.contributorIssues env (.obj fields) := by
    simp only [TeamSchema.contributorIssues, hroles]
    refine List.mem_append_left _ ?_
    refine List.mem_append_left _ ?_
    refine List.mem_append_right _ ?_
    rw [hsync]
    exact List.mem_append_right _ (List.mem_singleton.mpr rfl)
  exact List.ne_nil_of_mem hmem2

/-- Witness for the amended C6 at the one-key roles object. -/
theorem c6_witness :
    ("Nope" ∈ ([("Nope", Value.arr [])].map Prod.fst)
     ∧ "Nope" ∉ Projects.PROJECTS)
    ∧ (TeamSchema.rolesIssues (.obj [("Nope", Value.arr [])]) ≠ []
       ∧ (∃ e ∈ TeamSchema.rolesIssues (.obj [("Nope", Value.arr [])]),
           e.code = "unrecognized_keys" ∧ "Nope" ∈ e.keys)
       ∧ ∀ (env : Env) (fields : List (String × Value)),
           lookupField fields "roles" = some (.obj [("Nope", Value.arr [])]) →
           TeamSchema.contributorIssues env (.obj fields) ≠ []) :=
  ⟨⟨by decide, by decide⟩,
   c6_amended [("Nope", Value.arr [])] "Nope" (by decide) (by decide)⟩
